import Mathlib

/-!
Verification of the SSH session engine
(`apps/desktop/src-tauri/src/ssh/session.rs`).

The Rust code is shallowly embedded: pure fragments become Lean
functions; the effects a fragment performs (trust-store access, the
filesystem, the outbound command queue, emitted UI events) are made
explicit as inputs and outputs.  Outcomes of calls into the underlying
ssh2/libssh2 library (read results, write results, the user decision)
are inputs to the embedding, since the library is an external
collaborator of this repository.
-/

set_option autoImplicit false
set_option maxRecDepth 8192

namespace NeonShell

/-- Error type: the `AppError` variants used by the session engine
(`error.rs` / `session.rs`). -/
inductive AppError
  | Connection (msg : String)
  | Auth (msg : String)
  | Ssh (msg : String)
deriving DecidableEq, Repr

/-- `KnownHostsPolicy` from `session.rs` (Strict is the `Default`). -/
inductive KnownHostsPolicy
  | Strict
  | Ask
  | Accept
deriving DecidableEq, Repr

/-- `HostKeyDecision` from `session.rs`. -/
inductive HostKeyDecision
  | TrustOnce
  | TrustAlways
  | Reject
deriving DecidableEq, Repr

/-- `SessionState` from `session.rs`. -/
inductive SessionState
  | Created
  | Connecting
  | WaitingForHostKey
  | Connected
  | Disconnected
  | Error
deriving DecidableEq, Repr

/-- `ssh2::CheckResult`: outcome of the known-hosts check. -/
inductive CheckResult
  | Match
  | NotFound
  | Mismatch
  | Failure
deriving DecidableEq, Repr

/-- One persisted known-hosts entry.  `known_hosts.add` in
`verify_host_key` stores the plain host name together with the raw key
bytes (no port is recorded by the `add` call). -/
structure KnownHostEntry where
  host : String
  key : List Nat
deriving DecidableEq, Repr

/-- Modelled from the spec: the trust-store `check(host, port, key)`
interface of §6, implemented by the external ssh2 library
(`known_hosts.check_port`).  An entry whose host and key both match
yields `Match`; an entry for the same host with a different key yields
`Mismatch`; otherwise `NotFound`.  The port argument is kept for the
interface shape; entries carry no port (see `KnownHostEntry`). -/
def checkKnownHosts (entries : List KnownHostEntry) (host : String)
    (port : Nat) (key : List Nat) : CheckResult :=
  if entries.any (fun e => e.host == host && e.key == key) then
    CheckResult.Match
  else if entries.any (fun e => e.host == host && !(e.key == key)) then
    CheckResult.Mismatch
  else
    CheckResult.NotFound

instance exceptDecEq {ε α : Type} [DecidableEq ε] [DecidableEq α] :
    DecidableEq (Except ε α) := fun x y =>
  match x, y with
  | Except.ok a, Except.ok b =>
      if h : a = b then isTrue (by simp [h]) else isFalse (by simp [h])
  | Except.error a, Except.error b =>
      if h : a = b then isTrue (by simp [h]) else isFalse (by simp [h])
  | Except.ok _, Except.error _ => isFalse (by simp)
  | Except.error _, Except.ok _ => isFalse (by simp)

/-- Observable outcome of one `verify_host_key` call: the returned
result, the trust store after the call, whether the frontend host-key
prompt (`ssh:hostkey_request`) was emitted, whether the handle entered
`WaitingForHostKey`, and whether the distinguished possible-interception
warning (`ssh:error` with the SECURITY WARNING text) was emitted. -/
structure VerifyOutcome where
  result : Except AppError Unit
  store : List KnownHostEntry
  prompted : Bool
  enteredWaiting : Bool
  mismatchWarning : Bool
deriving DecidableEq, Repr

/-- `SessionHandle::verify_host_key` (session.rs lines 447-567).  The
policy parameter mirrors `self.config.known_hosts_policy`, which the
body never reads.  `decision` is what `wait_for_hostkey_decision`
yields on the NotFound path (`none` models its timeout error).  The
TrustAlways persistence steps (`add`, `create_dir_all`, `write_file`)
are modelled as succeeding, per the §6 `append` + `persist` contract. -/
def verify_host_key (policy : KnownHostsPolicy) (store : List KnownHostEntry)
    (host : String) (port : Nat) (key : List Nat)
    (decision : Option HostKeyDecision) : VerifyOutcome :=
  match checkKnownHosts store host port key with
  | CheckResult.Match =>
      { result := Except.ok (), store := store, prompted := false,
        enteredWaiting := false, mismatchWarning := false }
  | CheckResult.NotFound =>
      match decision with
      | some HostKeyDecision.TrustOnce =>
          { result := Except.ok (), store := store, prompted := true,
            enteredWaiting := true, mismatchWarning := false }
      | some HostKeyDecision.TrustAlways =>
          { result := Except.ok (),
            store := store ++ [{ host := host, key := key }],
            prompted := true, enteredWaiting := true,
            mismatchWarning := false }
      | some HostKeyDecision.Reject =>
          { result := Except.error (AppError.Ssh "Host key rejected by user"),
            store := store, prompted := true, enteredWaiting := true,
            mismatchWarning := false }
      | none =>
          { result := Except.error
              (AppError.Ssh "Host key verification timed out"),
            store := store, prompted := true, enteredWaiting := true,
            mismatchWarning := false }
  | CheckResult.Mismatch =>
      { result := Except.error
          (AppError.Ssh "Host key mismatch - possible security risk"),
        store := store, prompted := false, enteredWaiting := false,
        mismatchWarning := true }
  | CheckResult.Failure =>
      { result := Except.error (AppError.Ssh "Failed to check known hosts"),
        store := store, prompted := false, enteredWaiting := false,
        mismatchWarning := false }

/-- Outcome of the verification/authentication prefix of
`connect_blocking`: the propagated result and whether `authenticate`
was invoked at all. -/
structure ConnectOutcome where
  result : Except AppError Unit
  authAttempted : Bool
deriving DecidableEq, Repr

/-- The verify-then-authenticate prefix of
`SessionHandle::connect_blocking` (session.rs lines 326-330):
`self.verify_host_key(..)?` runs strictly before
`self.authenticate(..)?`, so a verification error propagates with the
`?` operator and `authenticate` is never invoked.  `authResult` is the
outcome `authenticate` would produce if invoked.  The later stages
(channel open, I/O loop) are modelled separately and do not affect
whether authentication is attempted. -/
def connect_blocking (policy : KnownHostsPolicy) (store : List KnownHostEntry)
    (host : String) (port : Nat) (key : List Nat)
    (decision : Option HostKeyDecision)
    (authResult : Except AppError Unit) : ConnectOutcome :=
  match (verify_host_key policy store host port key decision).result with
  | Except.error e => { result := Except.error e, authAttempted := false }
  | Except.ok _ =>
      match authResult with
      | Except.error e => { result := Except.error e, authAttempted := true }
      | Except.ok _ => { result := Except.ok (), authAttempted := true }

/-- Claim C1: whenever the trust store reports `Mismatch`,
`verify_host_key` returns a fatal error carrying the distinguished
mismatch message and emits the possible-interception warning; the
outcome is the same for every configured `known_hosts_policy`; and
`connect_blocking` never invokes `authenticate` on that attempt. -/
theorem hostkey_mismatch_fatal_before_auth
    (policy : KnownHostsPolicy) (store : List KnownHostEntry)
    (host : String) (port : Nat) (key : List Nat)
    (decision : Option HostKeyDecision) (authResult : Except AppError Unit)
    (hmis : checkKnownHosts store host port key = CheckResult.Mismatch) :
    (verify_host_key policy store host port key decision).result
        = Except.error (AppError.Ssh "Host key mismatch - possible security risk")
    ∧ (verify_host_key policy store host port key decision).mismatchWarning = true
    ∧ (∀ p2 : KnownHostsPolicy,
        verify_host_key p2 store host port key decision
          = verify_host_key policy store host port key decision)
    ∧ (connect_blocking policy store host port key decision authResult).authAttempted
        = false := by
  refine ⟨?_, ?_, ?_, ?_⟩
  · simp [verify_host_key, hmis]
  · simp [verify_host_key, hmis]
  · intro p2; rfl
  · simp [connect_blocking, verify_host_key, hmis]

/-- Witness for C1 at a concrete mismatching store/key. -/
theorem hostkey_mismatch_fatal_before_auth_witness :
    checkKnownHosts [{ host := "example.com", key := [1, 2] }] "example.com" 22 [3, 4]
        = CheckResult.Mismatch
    ∧ (verify_host_key KnownHostsPolicy.Accept
        [{ host := "example.com", key := [1, 2] }] "example.com" 22 [3, 4] none).result
        = Except.error (AppError.Ssh "Host key mismatch - possible security risk")
    ∧ (connect_blocking KnownHostsPolicy.Accept
        [{ host := "example.com", key := [1, 2] }] "example.com" 22 [3, 4] none
        (Except.ok ())).authAttempted = false := by
  have h : checkKnownHosts [{ host := "example.com", key := [1, 2] }]
      "example.com" 22 [3, 4] = CheckResult.Mismatch := by decide
  have hmain := hostkey_mismatch_fatal_before_auth KnownHostsPolicy.Accept
    [{ host := "example.com", key := [1, 2] }] "example.com" 22 [3, 4] none
    (Except.ok ()) h
  exact ⟨h, hmain.1, hmain.2.2.2⟩

/-- Claim C8: after `verify_host_key` completes the TrustAlways path on
an unknown host key, a reconnect to the same host presenting the same
key (any port: entries are stored per host, see `KnownHostEntry`)
yields `Match` from the trust-store check, proceeds successfully, and
neither enters `WaitingForHostKey` nor emits another host-key prompt,
under any policy and any pending decision. -/
theorem trust_always_idempotent
    (policy p2 : KnownHostsPolicy) (store : List KnownHostEntry)
    (host : String) (port port2 : Nat) (key : List Nat)
    (d2 : Option HostKeyDecision)
    (hnf : checkKnownHosts store host port key = CheckResult.NotFound) :
    (verify_host_key policy store host port key
        (some HostKeyDecision.TrustAlways)).result = Except.ok ()
    ∧ checkKnownHosts
        (verify_host_key policy store host port key
          (some HostKeyDecision.TrustAlways)).store host port2 key
        = CheckResult.Match
    ∧ verify_host_key p2
        (verify_host_key policy store host port key
          (some HostKeyDecision.TrustAlways)).store host port2 key d2
        = { result := Except.ok (),
            store := (verify_host_key policy store host port key
              (some HostKeyDecision.TrustAlways)).store,
            prompted := false, enteredWaiting := false,
            mismatchWarning := false } := by
  have hstore : (verify_host_key policy store host port key
      (some HostKeyDecision.TrustAlways)).store
      = store ++ [{ host := host, key := key }] := by
    simp [verify_host_key, hnf]
  have hres : (verify_host_key policy store host port key
      (some HostKeyDecision.TrustAlways)).result = Except.ok () := by
    simp [verify_host_key, hnf]
  have hcheck : checkKnownHosts (store ++ [{ host := host, key := key }])
      host port2 key = CheckResult.Match := by
    simp [checkKnownHosts]
  refine ⟨hres, ?_, ?_⟩
  · rw [hstore]; exact hcheck
  · rw [hstore]
    simp [verify_host_key, hcheck]

/-- Witness for C8 at an empty trust store. -/
theorem trust_always_idempotent_witness :
    checkKnownHosts [] "h" 22 [1] = CheckResult.NotFound
    ∧ checkKnownHosts
        (verify_host_key KnownHostsPolicy.Strict [] "h" 22 [1]
          (some HostKeyDecision.TrustAlways)).store "h" 22 [1]
        = CheckResult.Match := by
  have h : checkKnownHosts [] "h" 22 [1] = CheckResult.NotFound := by decide
  have hmain := trust_always_idempotent KnownHostsPolicy.Strict
    KnownHostsPolicy.Strict [] "h" 22 22 [1] none h
  exact ⟨h, hmain.2.1⟩

/-- `SessionHandle::wait_for_hostkey_decision` (session.rs lines
570-586) as a poll trace.  `sets` lists, for each 100 ms poll tick up
to the 60 s timeout, the value an external `set_hostkey_decision` call
stored into the slot just before that poll (`none` when no call
happened); exhausting `sets` models reaching the timeout.  The returned
pair is `(the result, the decision slot after the call)`: when the slot
holds a decision the code first calls `clear_hostkey_decision` and then
returns it. -/
def wait_for_hostkey_decision :
    List (Option HostKeyDecision) → Option HostKeyDecision →
    Except AppError HostKeyDecision × Option HostKeyDecision
  | [], slot => (Except.error (AppError.Ssh "Host key verification timed out"), slot)
  | extSet :: rest, slot =>
      match (match extSet with | some d => some d | none => slot) with
      | some d => (Except.ok d, none)
      | none => wait_for_hostkey_decision rest none

theorem wait_all_none_times_out (sets : List (Option HostKeyDecision))
    (hall : ∀ x ∈ sets, x = none) :
    (wait_for_hostkey_decision sets none).1
      = Except.error (AppError.Ssh "Host key verification timed out") := by
  induction sets with
  | nil => rfl
  | cons a rest ih =>
      have ha : a = none := hall a (List.mem_cons_self a rest)
      subst ha
      simpa [wait_for_hostkey_decision] using
        ih (fun x hx => hall x (List.mem_cons_of_mem none hx))

/-- Claim C10: the pending host-key decision slot is consumed at most
once.  Whenever `wait_for_hostkey_decision` returns a decision, the
slot has been cleared back to `none`; consequently a second wait that
starts from the resulting slot and sees no further external
`set_hostkey_decision` call cannot observe the first decision and times
out. -/
theorem hostkey_decision_slot_consumed_once
    (sets : List (Option HostKeyDecision)) (slot : Option HostKeyDecision)
    (d : HostKeyDecision)
    (hret : (wait_for_hostkey_decision sets slot).1 = Except.ok d) :
    (wait_for_hostkey_decision sets slot).2 = none
    ∧ ∀ sets2 : List (Option HostKeyDecision), (∀ x ∈ sets2, x = none) →
        (wait_for_hostkey_decision sets2
            (wait_for_hostkey_decision sets slot).2).1
          = Except.error (AppError.Ssh "Host key verification timed out") := by
  have hslot : (wait_for_hostkey_decision sets slot).2 = none := by
    induction sets generalizing slot with
    | nil => simp [wait_for_hostkey_decision] at hret
    | cons a rest ih =>
        match a, slot with
        | some d0, _ => simp [wait_for_hostkey_decision]
        | none, some d0 => simp [wait_for_hostkey_decision]
        | none, none =>
            simp only [wait_for_hostkey_decision] at hret ⊢
            exact ih none hret
  refine ⟨hslot, ?_⟩
  intro sets2 hall
  rw [hslot]
  exact wait_all_none_times_out sets2 hall

/-- Witness for C10: one external set of TrustOnce is returned and the
slot ends cleared; a following wait with no further sets times out. -/
theorem hostkey_decision_slot_consumed_once_witness :
    (wait_for_hostkey_decision [some HostKeyDecision.TrustOnce] none).2 = none
    ∧ (wait_for_hostkey_decision [none, none]
        (wait_for_hostkey_decision [some HostKeyDecision.TrustOnce] none).2).1
      = Except.error (AppError.Ssh "Host key verification timed out") := by
  have hmain := hostkey_decision_slot_consumed_once
    [some HostKeyDecision.TrustOnce] none HostKeyDecision.TrustOnce rfl
  exact ⟨hmain.1, hmain.2 [none, none] (by simp)⟩

/-- `SessionCommand` from session.rs: the vocabulary of the bounded
outbound queue. -/
inductive SessionCommand
  | Write (data : List Nat)
  | Resize (cols rows : Nat)
  | Close
deriving DecidableEq, Repr

/-- Capacity of the bounded outbound command queue:
`mpsc::channel::<SessionCommand>(1024)` in `connect_blocking`. -/
def OUTBOUND_QUEUE_CAPACITY : Nat := 1024

/-- Caller-side view of the outbound sender: how many commands the
bounded queue currently holds and whether the receiver (held by the
I/O loop) is still alive. -/
structure SenderView where
  queueLen : Nat
  receiverAlive : Bool
deriving DecidableEq, Repr

/-- `SessionHandle::send_data` (session.rs lines 898-908).  `tx` is the
content of the `write_tx` slot (`none` after `disconnect` takes it or
before connection).  `try_send` never blocks: it fails with `Full` when
the queue is at capacity and with `Closed` when the receiver was
dropped.  The second component is the command enqueued on success. -/
def send_data (tx : Option SenderView) (data : List Nat) :
    Except AppError Unit × Option SessionCommand :=
  match tx with
  | none => (Except.error (AppError.Ssh "Session closed"), none)
  | some v =>
      if v.receiverAlive = false then
        (Except.error (AppError.Ssh "Session closed"), none)
      else if OUTBOUND_QUEUE_CAPACITY ≤ v.queueLen then
        (Except.error (AppError.Ssh "Output queue full"), none)
      else
        (Except.ok (), some (SessionCommand.Write data))

/-- Claim C5: `send_data` is total (a Lean function, hence never blocks
or panics) and fails fast: with the queue at its 1024 capacity it
returns the queue-full error immediately; with the sender absent or the
receiver dropped it returns the session-closed error; otherwise it
enqueues the payload as a `Write` command and succeeds. -/
theorem send_data_fails_fast_never_blocks (v : SenderView) (data : List Nat) :
    (send_data none data).1 = Except.error (AppError.Ssh "Session closed")
    ∧ (v.receiverAlive = false →
        (send_data (some v) data).1
          = Except.error (AppError.Ssh "Session closed"))
    ∧ (v.receiverAlive = true → OUTBOUND_QUEUE_CAPACITY ≤ v.queueLen →
        (send_data (some v) data).1
          = Except.error (AppError.Ssh "Output queue full"))
    ∧ (v.receiverAlive = true → v.queueLen < OUTBOUND_QUEUE_CAPACITY →
        send_data (some v) data
          = (Except.ok (), some (SessionCommand.Write data))) := by
  refine ⟨rfl, ?_, ?_, ?_⟩
  · intro h; simp [send_data, h]
  · intro h hfull; simp [send_data, h, hfull]
  · intro h hlt
    simp [send_data, h, Nat.not_le_of_lt hlt]

/-- Witness for C5: the three outcomes at concrete sender states. -/
theorem send_data_fails_fast_never_blocks_witness :
    (send_data (some { queueLen := 1024, receiverAlive := true }) [7]).1
        = Except.error (AppError.Ssh "Output queue full")
    ∧ (send_data (some { queueLen := 3, receiverAlive := false }) [7]).1
        = Except.error (AppError.Ssh "Session closed")
    ∧ send_data (some { queueLen := 3, receiverAlive := true }) [7]
        = (Except.ok (), some (SessionCommand.Write [7])) := by
  refine ⟨?_, ?_, ?_⟩
  · exact (send_data_fails_fast_never_blocks
      { queueLen := 1024, receiverAlive := true } [7]).2.2.1 rfl (by decide)
  · exact (send_data_fails_fast_never_blocks
      { queueLen := 3, receiverAlive := false } [7]).2.1 rfl
  · exact (send_data_fails_fast_never_blocks
      { queueLen := 3, receiverAlive := true } [7]).2.2.2 rfl (by decide)

/-- Bool-valued infix test on character lists, used to embed Rust
`str::contains`. -/
def containsSeq (needle : List Char) : List Char → Bool
  | [] => needle.isEmpty
  | c :: rest => needle.isPrefixOf (c :: rest) || containsSeq needle rest

/-- Rust `hay.contains(needle)` on strings. -/
def strContains (hay needle : String) : Bool :=
  containsSeq needle.toList hay.toList

/-- The error classification in the `AuthMethod::Key` arm of
`authenticate` (session.rs lines 635-644): the lowercased library error
text is matched for passphrase/format problems, then server rejection,
then a generic failure. -/
def classify_key_auth_error (msg : String) : String :=
  let m := msg.toLower
  if strContains m "passphrase" || strContains m "decrypt"
      || strContains m "parse" then
    "Invalid passphrase or key format. Ensure the key is in PEM or OpenSSH format."
  else if strContains m "denied" || strContains m "auth" then
    "Private key not accepted by server"
  else
    "Private key authentication failed"

/-- The `AuthMethod::Key` arm of `SessionHandle::authenticate`
(session.rs lines 604-645), with the filesystem explicit as the list of
existing paths.  `keyFilePath` is the fresh uuid-named temp path,
`keyData` the resolved key material, `writeOk` the outcome of
`std::fs::write`, and `authResult` the outcome `userauth_pubkey_file`
reports (its error carries the library message text).  The code deletes
the temp file unconditionally between the authentication call and the
mapping of its result. -/
def authenticate_key (fs : List String) (keyFilePath : String)
    (keyData : Option String) (writeOk : Bool)
    (authResult : Except String Unit) :
    Except AppError Unit × List String :=
  match keyData with
  | none => (Except.error (AppError.Auth "Private key required"), fs)
  | some _ =>
      if writeOk = false then
        (Except.error (AppError.Auth "Failed to write temp key file"), fs)
      else
        let fsAfterWrite := keyFilePath :: fs
        let fsAfterRemove := fsAfterWrite.erase keyFilePath
        match authResult with
        | Except.ok _ => (Except.ok (), fsAfterRemove)
        | Except.error msg =>
            (Except.error (AppError.Auth (classify_key_auth_error msg)),
              fsAfterRemove)

/-- Claim C7: on every return path of the private-key authentication
arm — missing key material, temp-file write failure, library success or
library failure — the filesystem after the call equals the filesystem
before it: the temporary key file never outlives the call (it is absent
afterwards whenever it did not preexist), and no other path is
touched. -/
theorem temp_key_file_never_outlives_auth (fs : List String)
    (keyFilePath : String) (keyData : Option String) (writeOk : Bool)
    (authResult : Except String Unit) :
    (authenticate_key fs keyFilePath keyData writeOk authResult).2 = fs
    ∧ (keyFilePath ∉ fs →
        keyFilePath ∉ (authenticate_key fs keyFilePath keyData writeOk authResult).2) := by
  have hfs : (authenticate_key fs keyFilePath keyData writeOk authResult).2 = fs := by
    match keyData with
    | none => rfl
    | some k =>
        match writeOk with
        | false => rfl
        | true =>
            match authResult with
            | Except.ok _ => simp [authenticate_key]
            | Except.error msg => simp [authenticate_key]
  exact ⟨hfs, fun hnot => by rw [hfs]; exact hnot⟩

/-- Witness for C7: a concrete key auth failure removes the temp file. -/
theorem temp_key_file_never_outlives_auth_witness :
    (authenticate_key ["profiles.json"] "tmp_key_1" (some "KEYDATA") true
        (Except.error "Access denied")).2 = ["profiles.json"]
    ∧ "tmp_key_1" ∉ (authenticate_key ["profiles.json"] "tmp_key_1"
        (some "KEYDATA") true (Except.error "Access denied")).2 := by
  have hmain := temp_key_file_never_outlives_auth ["profiles.json"]
    "tmp_key_1" (some "KEYDATA") true (Except.error "Access denied")
  exact ⟨hmain.1, hmain.2 (by decide)⟩

/-- Rust `str::is_char_boundary` on a UTF-8 byte list: true at 0 and at
the length; inside, true exactly when the byte at that index is not a
continuation byte (i.e. is below 128 or at least 192). -/
def isCharBoundary (bytes : List Nat) (i : Nat) : Bool :=
  if i = 0 then true
  else
    match bytes.get? i with
    | some b => decide (b < 128 ∨ 192 ≤ b)
    | none => i == bytes.length

/-- `sanitize_error_message` (session.rs lines 954-964) over the UTF-8
bytes of the message.  `msg.len() > 200` compares byte length and
`&msg[..200]` slices 200 bytes, panicking (`none`) when byte offset 200
is not a character boundary; `"..."` is the three bytes 46, 46, 46. -/
def sanitize_error_message (msg : List Nat) : Option (List Nat) :=
  if 200 < msg.length then
    if isCharBoundary msg 200 then
      some (msg.take 200 ++ [46, 46, 46])
    else
      none
  else
    some msg

/-- Counterexample to C9: on the 201-byte UTF-8 encoding of 199 times
"a" followed by one two-byte character (0xC3 0xA9), byte offset 200
falls inside the final character, so the slice `&msg[..200]` panics:
`sanitize_error_message` is not total and does not truncate this input
to its first 200 characters. -/
theorem sanitize_error_message_panics_on_multibyte :
    sanitize_error_message (List.replicate 199 97 ++ [195, 169]) = none := by
  decide

/-- Claim C9 as amended: inputs of at most 200 bytes are returned
unchanged; longer inputs are truncated to their first 200 bytes
followed by "..." — a 203-byte result — provided byte offset 200 is a
UTF-8 character boundary; when it is not, the byte slice panics. -/
theorem sanitize_error_message_truncation (msg : List Nat) :
    (msg.length ≤ 200 → sanitize_error_message msg = some msg)
    ∧ (200 < msg.length → isCharBoundary msg 200 = true →
        sanitize_error_message msg = some (msg.take 200 ++ [46, 46, 46])
        ∧ ∀ out, sanitize_error_message msg = some out → out.length = 203)
    ∧ (200 < msg.length → isCharBoundary msg 200 = false →
        sanitize_error_message msg = none) := by
  refine ⟨?_, ?_, ?_⟩
  · intro hle
    simp [sanitize_error_message, Nat.not_lt_of_le hle]
  · intro hgt hb
    have heq : sanitize_error_message msg = some (msg.take 200 ++ [46, 46, 46]) := by
      simp [sanitize_error_message, hgt, hb]
    refine ⟨heq, ?_⟩
    intro out hout
    rw [heq] at hout
    have hlen : (msg.take 200 ++ [46, 46, 46]).length = 203 := by
      have : (msg.take 200).length = 200 := by
        simp [List.length_take]
        omega
      simp [this]
    rw [Option.some_inj] at hout
    rw [← hout]
    exact hlen
  · intro hgt hb
    simp [sanitize_error_message, hgt, hb]

/-- Witness for C9: a short message is unchanged, a 201-byte ASCII
message is truncated to 203 bytes, and the straddling input panics. -/
theorem sanitize_error_message_truncation_witness :
    sanitize_error_message [104, 105] = some [104, 105]
    ∧ sanitize_error_message (List.replicate 201 97)
        = some ((List.replicate 201 97).take 200 ++ [46, 46, 46])
    ∧ sanitize_error_message (List.replicate 199 97 ++ [195, 169]) = none := by
  refine ⟨?_, ?_, ?_⟩
  · exact (sanitize_error_message_truncation [104, 105]).1 (by decide)
  · exact ((sanitize_error_message_truncation (List.replicate 201 97)).2.1
      (by decide) (by decide)).1
  · exact (sanitize_error_message_truncation
      (List.replicate 199 97 ++ [195, 169])).2.2 (by decide) (by decide)

/-- `MAX_PENDING_BYTES` (session.rs line 189): 256 KiB write buffer. -/
def MAX_PENDING_BYTES : Nat := 256 * 1024

/-- `WRITE_CHUNK_BYTES` (session.rs line 190): limit of each write call. -/
def WRITE_CHUNK_BYTES : Nat := 8 * 1024

/-- `MAX_CONSECUTIVE_ERRORS` (session.rs line 701). -/
def MAX_CONSECUTIVE_ERRORS : Nat := 5

/-- How the per-iteration command drain (`for _ in 0..32`) stopped. -/
inductive DrainExit
  | BatchExhausted
  | QueueEmpty
  | CloseReceived
  | ChannelDisconnected
deriving DecidableEq, Repr

/-- Result of the command drain: the pending buffer, the commands still
queued, the payloads dropped with the `enqueue_dropped` diagnostic, and
how the batch stopped. -/
structure DrainResult where
  pending : List Nat
  queue : List SessionCommand
  dropped : List (List Nat)
  exitKind : DrainExit
deriving DecidableEq, Repr

/-- The command-drain batch of `run_io_loop` (session.rs lines
717-746): up to `fuel` (32 in the code) `try_recv` attempts.  A `Write`
whose payload would push the pending buffer past `MAX_PENDING_BYTES` is
dropped whole (`continue`); otherwise it is appended.  `Resize`
renegotiates the PTY and leaves the buffer alone.  `Close`, an empty
queue, and a disconnected sender all merely `break` this inner `for`
loop. -/
def drainCommands : Nat → List Nat → List SessionCommand → Bool → DrainResult
  | 0, pending, queue, _ =>
      { pending := pending, queue := queue, dropped := [],
        exitKind := DrainExit.BatchExhausted }
  | Nat.succ fuel, pending, queue, disconnected =>
      match queue with
      | [] =>
          { pending := pending, queue := [], dropped := [],
            exitKind := if disconnected then DrainExit.ChannelDisconnected
              else DrainExit.QueueEmpty }
      | cmd :: rest =>
          match cmd with
          | SessionCommand.Write data =>
              if MAX_PENDING_BYTES < pending.length + data.length then
                let r := drainCommands fuel pending rest disconnected
                { pending := r.pending, queue := r.queue,
                  dropped := data :: r.dropped, exitKind := r.exitKind }
              else
                drainCommands fuel (pending ++ data) rest disconnected
          | SessionCommand.Resize _ _ =>
              drainCommands fuel pending rest disconnected
          | SessionCommand.Close =>
              { pending := pending, queue := rest, dropped := [],
                exitKind := DrainExit.CloseReceived }

/-- Outcome of one `channel.stream(0).read(..)` call in the inbound
drain (session.rs lines 759-806), as reported by the library. -/
inductive ReadEvent
  | Data (bytes : List Nat)
  | ZeroRead
  | WouldBlock
  | TimedOut
  | Interrupted
  | RecoverableErr
  | FatalErr
deriving DecidableEq, Repr

/-- Result of the inbound drain: chunks emitted to the UI in order, and
the two error counters. -/
structure ReadResult where
  emitted : List (List Nat)
  read_error_count : Nat
  consecutive_errors : Nat
deriving DecidableEq, Repr

/-- The inbound drain of `run_io_loop` (session.rs lines 759-806): read
until a would-block/timeout/zero read or an error breaks out.  A
successful read resets both `read_error_count` and
`consecutive_errors` to 0 and emits the bytes; `Interrupted` retries; a
non-recoverable error increments `read_error_count` (and only that
counter) and breaks. -/
def readLoop : List ReadEvent → Nat → Nat → ReadResult
  | [], readErrCount, cons =>
      { emitted := [], read_error_count := readErrCount,
        consecutive_errors := cons }
  | ev :: rest, readErrCount, cons =>
      match ev with
      | ReadEvent.Data bytes =>
          let r := readLoop rest 0 0
          { emitted := bytes :: r.emitted,
            read_error_count := r.read_error_count,
            consecutive_errors := r.consecutive_errors }
      | ReadEvent.ZeroRead =>
          { emitted := [], read_error_count := readErrCount,
            consecutive_errors := cons }
      | ReadEvent.WouldBlock =>
          { emitted := [], read_error_count := readErrCount,
            consecutive_errors := cons }
      | ReadEvent.TimedOut =>
          { emitted := [], read_error_count := readErrCount,
            consecutive_errors := cons }
      | ReadEvent.Interrupted => readLoop rest readErrCount cons
      | ReadEvent.RecoverableErr =>
          { emitted := [], read_error_count := readErrCount,
            consecutive_errors := cons }
      | ReadEvent.FatalErr =>
          { emitted := [], read_error_count := readErrCount + 1,
            consecutive_errors := cons }

/-- Outcome of one `channel.write(..)` call in the outbound flush
(session.rs lines 809-848). -/
inductive WriteEvent
  | Wrote (n : Nat)
  | WroteZero
  | Recoverable
  | Fatal
deriving DecidableEq, Repr

/-- Result of the outbound flush: bytes that reached the wire, the
remaining pending buffer, the consecutive-error counter, and the bytes
discarded by `pending.clear()` on a fatal write error. -/
structure FlushResult where
  wire : List Nat
  pending : List Nat
  consecutive_errors : Nat
  cleared : List Nat
deriving DecidableEq, Repr

/-- The outbound flush of `run_io_loop` (session.rs lines 809-848):
while the pending buffer is non-empty, write its front in chunks of at
most `WRITE_CHUNK_BYTES`.  `Ok(n)` drains the first `n` bytes and
resets `consecutive_errors`; `Ok(0)` and recoverable errors
sleep-and-retry; a fatal error clears the whole buffer and breaks.
Each element of the event list is one write-call outcome; an exhausted
event list leaves the flush mid-way with its current state. -/
def flushLoop : List WriteEvent → List Nat → Nat → FlushResult
  | evs, pending, cons =>
      if pending.isEmpty then
        { wire := [], pending := pending, consecutive_errors := cons,
          cleared := [] }
      else
        match evs with
        | [] =>
            { wire := [], pending := pending, consecutive_errors := cons,
              cleared := [] }
        | ev :: rest =>
            match ev with
            | WriteEvent.WroteZero => flushLoop rest pending cons
            | WriteEvent.Recoverable => flushLoop rest pending cons
            | WriteEvent.Wrote n =>
                let k := min n (min pending.length WRITE_CHUNK_BYTES)
                let r := flushLoop rest (pending.drop k) 0
                { wire := pending.take k ++ r.wire, pending := r.pending,
                  consecutive_errors := r.consecutive_errors,
                  cleared := r.cleared }
            | WriteEvent.Fatal =>
                { wire := [], pending := [], consecutive_errors := cons,
                  cleared := pending }

/-- Why an iteration of the outer `loop` in `run_io_loop` exits. -/
inductive ExitReason
  | errorThreshold
  | channelEof
deriving DecidableEq, Repr

/-- The loop-carried state of `run_io_loop`. -/
structure IterState where
  consecutive_errors : Nat
  read_error_count : Nat
  pending : List Nat
deriving DecidableEq, Repr

/-- External inputs consumed by one iteration of the outer loop: the
queued commands and the sender-disconnected flag seen by `try_recv`,
the read and write outcomes the channel reports, and whether
`channel.eof()` holds at the end-of-iteration check. -/
structure IterInput where
  queue : List SessionCommand
  disconnected : Bool
  reads : List ReadEvent
  writes : List WriteEvent
  eofAfter : Bool
deriving DecidableEq, Repr

/-- Observable outcome of one iteration. -/
structure IterResult where
  state : IterState
  emitted : List (List Nat)
  wire : List Nat
  dropped : List (List Nat)
  cleared : List Nat
  exited : Bool
  exitReason : Option ExitReason
deriving DecidableEq, Repr

/-- One iteration of the outer `loop` of `run_io_loop` (session.rs
lines 705-858), in the fixed order of the code: keepalive pacing
(non-fatal, no observable state), the 32-command drain, the
consecutive-error threshold check, the inbound drain, the outbound
flush, and the `channel.eof()` check.  The iteration exits only through
the threshold check or the EOF check; receiving `Close` or finding the
sender disconnected only ends the drain batch. -/
def iterate (s : IterState) (inp : IterInput) : IterResult :=
  let d := drainCommands 32 s.pending inp.queue inp.disconnected
  if MAX_CONSECUTIVE_ERRORS ≤ s.consecutive_errors then
    let s2 : IterState :=
      { consecutive_errors := s.consecutive_errors,
        read_error_count := s.read_error_count, pending := d.pending }
    { state := s2, emitted := [], wire := [], dropped := d.dropped,
      cleared := [], exited := true,
      exitReason := some ExitReason.errorThreshold }
  else
    let r := readLoop inp.reads s.read_error_count s.consecutive_errors
    let f := flushLoop inp.writes d.pending r.consecutive_errors
    let s2 : IterState :=
      { consecutive_errors := f.consecutive_errors,
        read_error_count := r.read_error_count, pending := f.pending }
    { state := s2, emitted := r.emitted, wire := f.wire,
      dropped := d.dropped, cleared := f.cleared, exited := inp.eofAfter,
      exitReason := if inp.eofAfter then some ExitReason.channelEof else none }

theorem readLoop_cons_zero (evs : List ReadEvent) (readErrCount : Nat) :
    (readLoop evs readErrCount 0).consecutive_errors = 0 := by
  induction evs generalizing readErrCount with
  | nil => rfl
  | cons ev rest ih =>
      cases ev with
      | Data bytes => simpa [readLoop] using ih 0
      | ZeroRead => rfl
      | WouldBlock => rfl
      | TimedOut => rfl
      | Interrupted => simpa [readLoop] using ih readErrCount
      | RecoverableErr => rfl
      | FatalErr => rfl

theorem flushLoop_cons_zero (evs : List WriteEvent) (pending : List Nat) :
    (flushLoop evs pending 0).consecutive_errors = 0 := by
  induction evs generalizing pending with
  | nil =>
      by_cases h : pending.isEmpty <;> simp [flushLoop, h]
  | cons ev rest ih =>
      by_cases h : pending.isEmpty
      · simp [flushLoop, h]
      · cases ev with
        | WroteZero => simpa [flushLoop, h] using ih pending
        | Recoverable => simpa [flushLoop, h] using ih pending
        | Wrote n => simpa [flushLoop, h] using ih _
        | Fatal => simp [flushLoop, h]

/-- Claim C2 refuted: no path of `run_io_loop` increments
`consecutive_errors` (non-recoverable read errors increment the
separate, never-checked `read_error_count`), so from the initial
counter value 0 every iteration — whatever commands, read errors and
write outcomes it sees — leaves the counter at 0, never exits through
the ≥ 5 threshold check, and exits exactly when the channel reports
EOF. -/
theorem consecutive_error_counter_never_incremented
    (s : IterState) (inp : IterInput) (h : s.consecutive_errors = 0) :
    (iterate s inp).state.consecutive_errors = 0
    ∧ (iterate s inp).exited = inp.eofAfter
    ∧ (iterate s inp).exitReason ≠ some ExitReason.errorThreshold := by
  have hlt : ¬ MAX_CONSECUTIVE_ERRORS ≤ s.consecutive_errors := by
    rw [h]; decide
  refine ⟨?_, ?_, ?_⟩
  · simp only [iterate, hlt, if_false]
    rw [h, readLoop_cons_zero]
    exact flushLoop_cons_zero _ _
  · simp [iterate, hlt]
  · simp only [iterate, hlt, if_false]
    by_cases he : inp.eofAfter <;> simp [he]

/-- Witness for C2 at a state whose reads are six consecutive
non-recoverable errors: the counter stays 0 and the loop does not
exit. -/
theorem consecutive_error_counter_never_incremented_witness :
    ((iterate { consecutive_errors := 0, read_error_count := 0, pending := [] }
        { queue := [], disconnected := false,
          reads := [ReadEvent.FatalErr, ReadEvent.FatalErr, ReadEvent.FatalErr,
            ReadEvent.FatalErr, ReadEvent.FatalErr, ReadEvent.FatalErr],
          writes := [], eofAfter := false }).state.consecutive_errors = 0)
    ∧ ((iterate { consecutive_errors := 0, read_error_count := 0, pending := [] }
        { queue := [], disconnected := false,
          reads := [ReadEvent.FatalErr, ReadEvent.FatalErr, ReadEvent.FatalErr,
            ReadEvent.FatalErr, ReadEvent.FatalErr, ReadEvent.FatalErr],
          writes := [], eofAfter := false }).exited = false) := by
  have hmain := consecutive_error_counter_never_incremented
    { consecutive_errors := 0, read_error_count := 0, pending := [] }
    { queue := [], disconnected := false,
      reads := [ReadEvent.FatalErr, ReadEvent.FatalErr, ReadEvent.FatalErr,
        ReadEvent.FatalErr, ReadEvent.FatalErr, ReadEvent.FatalErr],
      writes := [], eofAfter := false } rfl
  exact ⟨hmain.1, hmain.2.1⟩

/-- Claim C3 refuted: dequeuing `Close` ends only the 32-command drain
batch (`break` leaves the inner `for`, not the outer `loop`): in the
very iteration that consumes a `Close`, the loop still performs the
inbound read (emitting its data) and does not exit. -/
theorem close_command_does_not_exit_io_loop :
    (drainCommands 32 [] [SessionCommand.Close] false).exitKind
        = DrainExit.CloseReceived
    ∧ (iterate { consecutive_errors := 0, read_error_count := 0, pending := [] }
        { queue := [SessionCommand.Close], disconnected := false,
          reads := [ReadEvent.Data [104, 105]], writes := [],
          eofAfter := false }).exited = false
    ∧ (iterate { consecutive_errors := 0, read_error_count := 0, pending := [] }
        { queue := [SessionCommand.Close], disconnected := false,
          reads := [ReadEvent.Data [104, 105]], writes := [],
          eofAfter := false }).emitted = [[104, 105]]
    ∧ (iterate { consecutive_errors := 0, read_error_count := 0, pending := [] }
        { queue := [SessionCommand.Close], disconnected := false,
          reads := [ReadEvent.Data [104, 105]], writes := [],
          eofAfter := false }).exitReason = none := by
  refine ⟨rfl, ?_, ?_, ?_⟩ <;> decide

/-- The payload of a `Write` command. -/
def writePayload : SessionCommand → Option (List Nat)
  | SessionCommand.Write data => some data
  | SessionCommand.Resize _ _ => none
  | SessionCommand.Close => none

theorem drainCommands_pending_spec (fuel : Nat) (pending : List Nat)
    (queue : List SessionCommand) (disc : Bool) :
    ∃ accepted : List (List Nat),
      (drainCommands fuel pending queue disc).pending
          = pending ++ accepted.flatten
      ∧ accepted.Sublist (queue.filterMap writePayload) := by
  induction fuel generalizing pending queue with
  | zero => exact ⟨[], by simp [drainCommands], List.nil_sublist _⟩
  | succ fuel ih =>
      cases queue with
      | nil => exact ⟨[], by simp [drainCommands], List.nil_sublist _⟩
      | cons cmd rest =>
          cases cmd with
          | Write data =>
              by_cases hover : MAX_PENDING_BYTES < pending.length + data.length
              · obtain ⟨acc, hpend, hsub⟩ := ih pending rest
                refine ⟨acc, ?_, ?_⟩
                · simp [drainCommands, hover, hpend]
                · simp only [List.filterMap_cons, writePayload]
                  exact hsub.cons data
              · obtain ⟨acc, hpend, hsub⟩ := ih (pending ++ data) rest
                refine ⟨data :: acc, ?_, ?_⟩
                · simp [drainCommands, hover, hpend, List.append_assoc]
                · simp only [List.filterMap_cons, writePayload]
                  exact hsub.cons₂ data
          | Resize cols rows =>
              obtain ⟨acc, hpend, hsub⟩ := ih pending rest
              refine ⟨acc, by simp [drainCommands, hpend], ?_⟩
              simpa only [List.filterMap_cons, writePayload] using hsub
          | Close => exact ⟨[], by simp [drainCommands], List.nil_sublist _⟩

theorem drainCommands_pending_le (fuel : Nat) (pending : List Nat)
    (queue : List SessionCommand) (disc : Bool)
    (h : pending.length ≤ MAX_PENDING_BYTES) :
    (drainCommands fuel pending queue disc).pending.length
      ≤ MAX_PENDING_BYTES := by
  induction fuel generalizing pending queue with
  | zero => simpa [drainCommands] using h
  | succ fuel ih =>
      cases queue with
      | nil => simpa [drainCommands] using h
      | cons cmd rest =>
          cases cmd with
          | Write data =>
              by_cases hover : MAX_PENDING_BYTES < pending.length + data.length
              · simpa [drainCommands, hover] using ih pending rest h
              · have hfit : (pending ++ data).length ≤ MAX_PENDING_BYTES := by
                  rw [List.length_append]; omega
                simpa [drainCommands, hover] using ih (pending ++ data) rest hfit
          | Resize cols rows => simpa [drainCommands] using ih pending rest h
          | Close => simpa [drainCommands] using h

theorem flushLoop_partition (evs : List WriteEvent) (pending : List Nat)
    (cons : Nat) :
    (flushLoop evs pending cons).wire ++ (flushLoop evs pending cons).cleared
        ++ (flushLoop evs pending cons).pending = pending := by
  induction evs generalizing pending cons with
  | nil => by_cases h : pending.isEmpty <;> simp [flushLoop, h]
  | cons ev rest ih =>
      by_cases h : pending.isEmpty
      · simp [flushLoop, h]
      · cases ev with
        | WroteZero => simpa [flushLoop, h] using ih pending cons
        | Recoverable => simpa [flushLoop, h] using ih pending cons
        | Wrote n =>
            have ih2 : ∀ (p : List Nat) (c : Nat),
                (flushLoop rest p c).wire ++ ((flushLoop rest p c).cleared
                  ++ (flushLoop rest p c).pending) = p := by
              intro p c
              rw [← List.append_assoc]
              exact ih p c
            simp only [flushLoop, h, Bool.false_eq_true, if_false,
              List.append_assoc]
            rw [ih2]
            exact List.take_append_drop _ pending
        | Fatal => simp [flushLoop, h]

theorem flushLoop_pending_le (evs : List WriteEvent) (pending : List Nat)
    (cons : Nat) :
    (flushLoop evs pending cons).pending.length ≤ pending.length := by
  have h := congrArg List.length (flushLoop_partition evs pending cons)
  simp only [List.length_append] at h
  omega

/-- Claim C4: the pending-output buffer never exceeds
`MAX_PENDING_BYTES` (256 KiB).  The command drain preserves the bound
for any batch of commands; a `Write` that would push the buffer past
the bound is dropped whole — the buffer after processing it equals the
buffer after processing the rest of the queue without it, and the
payload is recorded in the diagnostic drop list; and a full loop
iteration (drain, reads, flush) preserves the bound. -/
theorem pending_buffer_never_exceeds_cap :
    (∀ (fuel : Nat) (pending : List Nat) (queue : List SessionCommand)
        (disc : Bool), pending.length ≤ MAX_PENDING_BYTES →
        (drainCommands fuel pending queue disc).pending.length
          ≤ MAX_PENDING_BYTES)
    ∧ (∀ (fuel : Nat) (pending data : List Nat) (rest : List SessionCommand)
        (disc : Bool), MAX_PENDING_BYTES < pending.length + data.length →
        (drainCommands (fuel + 1) pending
            (SessionCommand.Write data :: rest) disc).pending
          = (drainCommands fuel pending rest disc).pending
        ∧ (drainCommands (fuel + 1) pending
            (SessionCommand.Write data :: rest) disc).dropped
          = data :: (drainCommands fuel pending rest disc).dropped)
    ∧ (∀ (s : IterState) (inp : IterInput),
        s.pending.length ≤ MAX_PENDING_BYTES →
        (iterate s inp).state.pending.length ≤ MAX_PENDING_BYTES) := by
  refine ⟨drainCommands_pending_le, ?_, ?_⟩
  · intro fuel pending data rest disc hover
    constructor <;> simp [drainCommands, hover]
  · intro s inp h
    by_cases hth : MAX_CONSECUTIVE_ERRORS ≤ s.consecutive_errors
    · simp only [iterate, hth, if_true]
      exact drainCommands_pending_le _ _ _ _ h
    · simp only [iterate, hth, if_false]
      exact le_trans (flushLoop_pending_le _ _ _)
        (drainCommands_pending_le _ _ _ _ h)

/-- Witness for C4: an oversized write (262145 bytes against the
262144-byte ceiling) is dropped whole, and the bound is preserved at
concrete inputs. -/
theorem pending_buffer_never_exceeds_cap_witness :
    MAX_PENDING_BYTES
        < ([] : List Nat).length + (List.replicate 262145 (0 : Nat)).length
    ∧ (drainCommands 32 []
          [SessionCommand.Write (List.replicate 262145 (0 : Nat))] false).pending
        = (drainCommands 31 [] [] false).pending
    ∧ (drainCommands 32 [] [SessionCommand.Write [7, 8]] false).pending.length
        ≤ MAX_PENDING_BYTES := by
  have hover : MAX_PENDING_BYTES
      < ([] : List Nat).length + (List.replicate 262145 (0 : Nat)).length := by
    rw [List.length_replicate]
    decide
  refine ⟨hover, ?_, ?_⟩
  · exact (pending_buffer_never_exceeds_cap.2.1 31 [] _ [] false hover).1
  · exact pending_buffer_never_exceeds_cap.1 32 [] _ false (by simp)

/-- Claim C6: no reordering and no duplication of outbound bytes.  The
command drain extends the pending buffer by exactly the concatenation,
in dequeue order, of a subsequence of the submitted `Write` payloads
(the accepted ones; drops are whole payloads); and the flush partitions the
buffer it is given into the bytes written to the wire (a prefix),
the bytes discarded on a fatal write error, and the bytes still
pending after it — in that order, summing back to the buffer. -/
theorem outbound_bytes_in_submission_order :
    (∀ (fuel : Nat) (pending : List Nat) (queue : List SessionCommand)
        (disc : Bool),
        ∃ accepted : List (List Nat),
          (drainCommands fuel pending queue disc).pending
              = pending ++ accepted.flatten
          ∧ accepted.Sublist (queue.filterMap writePayload))
    ∧ (∀ (evs : List WriteEvent) (pending : List Nat) (cons : Nat),
        (flushLoop evs pending cons).wire
            ++ (flushLoop evs pending cons).cleared
            ++ (flushLoop evs pending cons).pending = pending) :=
  ⟨drainCommands_pending_spec, flushLoop_partition⟩

end NeonShell
